import Mathlib

/-!
# Verification of the fugit time library's numeric core

Shallow embedding of the `fugit` crate (src/helpers.rs, src/duration.rs,
src/instant.rs, src/rate.rs). Tick counts of the `u32`/`u64`-backed types are
embedded as `Nat` together with an explicit bit width `w` (32 or 64); every
operation that the hardware would perform modulo `2^w` carries the reduction
explicitly. Fallible operations return `Option`; `none` also stands for a
Rust panic where the source can panic (each such spot is commented).
-/

namespace Fugit

/-- Modelled from the spec: the `Fraction` const-generic scale parameter
(`RationalScale`), a numerator/denominator pair of `u32`s. The struct itself
is referenced from every source file but its definition is not among the
provided sources; the spec (§3) fixes it as `{ numerator: u32, denominator: u32 }`. -/
structure Fraction where
  num : Nat
  denom : Nat
deriving DecidableEq

/-- Validity invariant of a scale: both components strictly positive (asserted
by `from_ticks`/`from_raw`) and representable as `u32`. -/
def Fraction.Valid (f : Fraction) : Prop :=
  0 < f.num ∧ f.num < 2 ^ 32 ∧ 0 < f.denom ∧ f.denom < 2 ^ 32

instance (f : Fraction) : Decidable f.Valid := by
  unfold Fraction.Valid; infer_instance

/-!
## helpers.rs — the scale reducer

`Helpers<L_NOM, L_DENOM, R_NOM, R_DENOM>` computes its constants in `u64`.
Products of two `u32`s are below `2^64`, and the gcd quotients only shrink,
so `u64` arithmetic on them is exact and `Nat` embeds it faithfully.
`gcd::binary_u64` (external crate) computes the mathematical gcd, embedded as
`Nat.gcd`. The constants are functions of the two `Fraction` parameters
`L` and `R`.
-/

/-- `Helpers::DIVISOR = gcd(L_DENOM * R_NOM, R_DENOM * L_NOM)`. -/
def divisor (L R : Fraction) : Nat :=
  Nat.gcd (L.denom * R.num) (R.denom * L.num)

/-- `Helpers::RD_TIMES_LN = (R_DENOM * L_NOM) / DIVISOR`. -/
def rdTimesLn (L R : Fraction) : Nat :=
  R.denom * L.num / divisor L R

/-- `Helpers::LD_TIMES_RN = (L_DENOM * R_NOM) / DIVISOR`. -/
def ldTimesRn (L R : Fraction) : Nat :=
  L.denom * R.num / divisor L R

/-- `Helpers::DIVISOR_2 = gcd(L_NOM * R_NOM, R_DENOM * L_DENOM)`. -/
def divisor2 (L R : Fraction) : Nat :=
  Nat.gcd (L.num * R.num) (R.denom * L.denom)

/-- `Helpers::LN_TIMES_RN = (L_NOM * R_NOM) / DIVISOR_2`. -/
def lnTimesRn (L R : Fraction) : Nat :=
  L.num * R.num / divisor2 L R

/-- `Helpers::RD_TIMES_LD = (R_DENOM * L_DENOM) / DIVISOR_2`. -/
def rdTimesLd (L R : Fraction) : Nat :=
  R.denom * L.denom / divisor2 L R

/-- `Helpers::RATE_TO_DURATION_NUMERATOR = RD_TIMES_LD / LN_TIMES_RN`. -/
def rateToDurationNumerator (L R : Fraction) : Nat :=
  rdTimesLd L R / lnTimesRn L R

/-- `Helpers::SAME_BASE = LD_TIMES_RN == RD_TIMES_LN`. -/
def sameBase (L R : Fraction) : Bool :=
  ldTimesRn L R == rdTimesLn L R

/-!
## Machine-integer primitives

`w` is the bit width of the backing type (`32` for `u32`, `64` for `u64`).
All embedded values are `< 2^w`.
-/

/-- The `as $i` cast of a `u64` constant into the backing type: reduction
modulo `2^w`. -/
def toWidth (w x : Nat) : Nat := x % 2 ^ w

/-- `wrapping_sub` on `w`-bit unsigned integers: for `a, b < 2^w` this is
`(a - b) mod 2^w`. -/
def wrappingSub (w a b : Nat) : Nat := (a + (2 ^ w - b)) % 2 ^ w

/-- `wrapping_add` on `w`-bit unsigned integers. -/
def wrappingAdd (w a b : Nat) : Nat := (a + b) % 2 ^ w

/-- `checked_add` on `w`-bit unsigned integers. -/
def checkedAdd (w a b : Nat) : Option Nat :=
  if a + b < 2 ^ w then some (a + b) else none

/-- `checked_sub` on unsigned integers (width irrelevant: no underflow means
the `Nat` difference is the result). -/
def checkedSub (a b : Nat) : Option Nat :=
  if b ≤ a then some (a - b) else none

/-- `checked_mul` on `w`-bit unsigned integers. -/
def checkedMul (w a b : Nat) : Option Nat :=
  if a * b < 2 ^ w then some (a * b) else none

/-!
## instant.rs — `Instant`

An `Instant<$i, F>` is its tick count; the scale `F` does not enter
`const_cmp`/`checked_duration_since`, so those are functions of the width
and the two tick counts only.
-/

/-- `Instant::const_cmp` (src/instant.rs): equal ticks compare `Equal`;
otherwise the wrapping difference is compared against `<$i>::MAX / 2`,
with the exact half-range tie mapped to `Equal`. -/
def instantConstCmp (w a b : Nat) : Ordering :=
  if a = b then Ordering.eq
  else
    let v := wrappingSub w a b
    if v > (2 ^ w - 1) / 2 then Ordering.lt
    else if v < (2 ^ w - 1) / 2 then Ordering.gt
    else Ordering.eq

/-- `Instant::checked_duration_since` (src/instant.rs): `Some` of the wrapping
difference when `const_cmp` is `Greater` or `Equal`, `None` when `Less`. -/
def instantCheckedDurationSince (w a b : Nat) : Option Nat :=
  match instantConstCmp w a b with
  | Ordering.gt => some (wrappingSub w a b)
  | Ordering.eq => some (wrappingSub w a b)
  | Ordering.lt => none

/-- `PartialEq for Instant` (src/instant.rs): plain tick equality. -/
def instantEq (a b : Nat) : Bool := a == b

/-!
## duration.rs — `Duration`

A `Duration<$i, F>` is its tick count `< 2^w` at scale `F`. Each source
method becomes a function of the width, the scale parameters and the tick
counts. The `as $i` casts of the `u64` helper constants are `toWidth w`.
-/

/-- `Duration::checked_add` (src/duration.rs): same-base path adds ticks with
overflow check; otherwise `other`'s ticks are rescaled by
`checked_mul(LD_TIMES_RN as $i)` then divided by `RD_TIMES_LN as $i` before
the checked add. A zero divisor (the cast truncating `RD_TIMES_LN` to `0`)
makes the Rust division panic; that panic is modelled as `none`. -/
def durationCheckedAdd (w : Nat) (F O : Fraction) (a b : Nat) : Option Nat :=
  if sameBase F O then
    checkedAdd w a b
  else
    match checkedMul w b (toWidth w (ldTimesRn F O)) with
    | some lh =>
        if toWidth w (rdTimesLn F O) = 0 then none
        else checkedAdd w a (lh / toWidth w (rdTimesLn F O))
    | none => none

/-- `Duration::checked_sub` (src/duration.rs): as `checked_add` with a
checked subtraction at the end. -/
def durationCheckedSub (w : Nat) (F O : Fraction) (a b : Nat) : Option Nat :=
  if sameBase F O then
    checkedSub a b
  else
    match checkedMul w b (toWidth w (ldTimesRn F O)) with
    | some lh =>
        if toWidth w (rdTimesLn F O) = 0 then none
        else checkedSub a (lh / toWidth w (rdTimesLn F O))
    | none => none

/-- `Duration::const_try_from` (src/duration.rs), converting a duration of
`t` ticks at scale `I` into scale `F`: a same-base no-op, else a `u64`
widening multiply by `RD_TIMES_LN` (checked), a division by `LD_TIMES_RN`
(both used at full `u64` width here, no cast), and a range check against
`<$i>::MAX`. -/
def durationConstTryFrom (w : Nat) (I F : Fraction) (t : Nat) : Option Nat :=
  if sameBase I F then some t
  else
    match checkedMul 64 t (rdTimesLn I F) with
    | some lh =>
        if lh / ldTimesRn I F ≤ 2 ^ w - 1 then some (lh / ldTimesRn I F)
        else none
    | none => none

/-- `Duration::convert` (src/duration.rs): `const_try_into` with a panic on
`None`, which is `const_try_from` with the arguments flipped; the panic is
modelled as `none`. -/
def durationConvert (w : Nat) (F O : Fraction) (t : Nat) : Option Nat :=
  durationConstTryFrom w F O t

/-- `impl Add for Duration` (src/duration.rs, lines 485–498): calls
`checked_add` and panics on `None` (modelled as `none`). -/
def durationAddOp (w : Nat) (F : Fraction) (a b : Nat) : Option Nat :=
  match durationCheckedAdd w F F a b with
  | some v => some v
  | none => none

/-- `impl Sub for Duration` (src/duration.rs): calls `checked_sub` and panics
on `None` (modelled as `none`). -/
def durationSubOp (w : Nat) (F : Fraction) (a b : Nat) : Option Nat :=
  match durationCheckedSub w F F a b with
  | some v => some v
  | none => none

/-- `impl Mul<u32> for Duration` (src/duration.rs, lines 522–530):
`self.ticks *= other as $i` — a plain primitive multiplication on the tick
count. No checked form is consulted; with the release-profile overflow
semantics of the primitive operator the product wraps modulo `2^w`.
`k < 2^32` (a `u32`), so the `as $i` cast preserves its value. -/
def durationMulOp (w : Nat) (t k : Nat) : Nat := t * k % 2 ^ w

/-- `impl Div<u32> for Duration` (src/duration.rs): `self.ticks /= other as
$i` — plain truncating division on the tick count; division by zero panics
(modelled as `none`). -/
def durationDivOp (t k : Nat) : Option Nat :=
  if k = 0 then none else some (t / k)

/-- `impl Div<Duration> for Duration` (src/duration.rs, lines 564–574):
`self.convert::<R>()` — the LEFT operand converted into the RIGHT operand's
base — then truncating tick division. The panics of `convert` and of a
zero right-hand tick count are modelled as `none`. -/
def durationDivDuration (w : Nat) (L R : Fraction) (lt rt : Nat) : Option Nat :=
  match durationConvert w L R lt with
  | some c => if rt = 0 then none else some (c / rt)
  | none => none

/-- The division rule in the words of the spec (§4.2): "after converting the
right-hand side into the left-hand side's base" divide the tick counts.
Stated from the spec, for comparison with `durationDivDuration`. -/
def durationDivDurationSpec (w : Nat) (L R : Fraction) (lt rt : Nat) : Option Nat :=
  match durationConvert w R L rt with
  | some c => if c = 0 then none else some (lt / c)
  | none => none

/-- `Duration::try_from_rate` (src/duration.rs, lines 346–357), building a
duration at scale `F` from a rate of `raw` at scale `I`: for positive `raw`,
`Helpers::<I, F>::RATE_TO_DURATION_NUMERATOR as $i / raw`; `None` on zero. -/
def durationTryFromRate (w : Nat) (I F : Fraction) (raw : Nat) : Option Nat :=
  if 0 < raw then some (toWidth w (rateToDurationNumerator I F) / raw)
  else none

/-- `Rate::try_from_duration` (src/rate.rs, lines 286–297), building a rate
at scale `F` from a duration of `t` ticks at scale `I`: for positive `t`,
`Helpers::<I, F>::RATE_TO_DURATION_NUMERATOR as $i / t`; `None` on zero. -/
def rateTryFromDuration (w : Nat) (I F : Fraction) (t : Nat) : Option Nat :=
  if 0 < t then some (toWidth w (rateToDurationNumerator I F) / t)
  else none

/-!
## The cross-width bridge (src/duration.rs, lines 627–641)
-/

/-- `From<Duration<u32>> for Duration<u64>`: `from_ticks(val.ticks() as u64)`
— the zero-extending cast, value-preserving on `t < 2^32`. -/
def durationWidenU32ToU64 (t : Nat) : Nat := t

/-- `TryFrom<Duration<u64>> for Duration<u32>`: `val.ticks().try_into()`,
which succeeds exactly when the value fits `u32` (`Err` modelled as
`none`). -/
def durationNarrowU64ToU32 (t : Nat) : Option Nat :=
  if t ≤ 2 ^ 32 - 1 then some t else none

/-!
## Helper lemmas about the scale reducer
-/

/-- Dividing two numbers by their gcd preserves and reflects equality. -/
theorem gcd_quot_eq_iff {a b : Nat} :
    a / Nat.gcd a b = b / Nat.gcd a b ↔ a = b := by
  constructor
  · intro h
    have h1 : a / Nat.gcd a b * Nat.gcd a b = a :=
      Nat.div_mul_cancel (Nat.gcd_dvd_left a b)
    have h2 : b / Nat.gcd a b * Nat.gcd a b = b :=
      Nat.div_mul_cancel (Nat.gcd_dvd_right a b)
    calc a = a / Nat.gcd a b * Nat.gcd a b := h1.symm
    _ = b / Nat.gcd a b * Nat.gcd a b := by rw [h]
    _ = b := h2
  · intro h
    rw [h]

theorem divisor_comm (A B : Fraction) : divisor B A = divisor A B := by
  unfold divisor
  exact Nat.gcd_comm _ _

theorem rdTimesLn_swap (A B : Fraction) : rdTimesLn B A = ldTimesRn A B := by
  unfold rdTimesLn ldTimesRn
  rw [divisor_comm]

theorem ldTimesRn_swap (A B : Fraction) : ldTimesRn B A = rdTimesLn A B := by
  unfold ldTimesRn rdTimesLn
  rw [divisor_comm]

theorem sameBase_swap (A B : Fraction) : sameBase B A = sameBase A B := by
  unfold sameBase
  rw [rdTimesLn_swap, ldTimesRn_swap]
  by_cases h : ldTimesRn A B = rdTimesLn A B
  · rw [h]
  · rw [beq_eq_false_iff_ne.mpr (Ne.symm h), beq_eq_false_iff_ne.mpr h]

theorem rdTimesLn_pos (A B : Fraction) (hA : A.Valid) (hB : B.Valid) :
    0 < rdTimesLn A B := by
  unfold rdTimesLn
  have hp : 0 < B.denom * A.num := Nat.mul_pos hB.2.2.1 hA.1
  have hg : 0 < divisor A B := by
    unfold divisor
    exact Nat.gcd_pos_of_pos_right _ hp
  exact Nat.div_pos (Nat.le_of_dvd hp (Nat.gcd_dvd_right _ _)) hg

/-!
## The claims
-/

/-- **C1** (confirmed). For every backing width `w` and tick counts `a`, `b`,
`const_cmp` returns `Equal` when the ticks are equal, and otherwise compares
the wrapping difference `d = (a + (2^w - b)) % 2^w` against `T::MAX / 2`:
`Less` if `d` is above the half range, `Greater` if below, `Equal` at the
exact tie. In particular an instant with 1 tick compares `Greater` than one
with `T::MAX` ticks, for both `u32` and `u64`. -/
theorem const_cmp_modular_rule :
    (∀ w a b : Nat,
      instantConstCmp w a b =
        if a = b then Ordering.eq
        else if (a + (2 ^ w - b)) % 2 ^ w > (2 ^ w - 1) / 2 then Ordering.lt
        else if (a + (2 ^ w - b)) % 2 ^ w < (2 ^ w - 1) / 2 then Ordering.gt
        else Ordering.eq)
    ∧ instantConstCmp 32 1 (2 ^ 32 - 1) = Ordering.gt
    ∧ instantConstCmp 64 1 (2 ^ 64 - 1) = Ordering.gt := by
  refine ⟨fun w a b => rfl, by decide, by decide⟩

/-- **C2** (confirmed). `checked_duration_since` returns `Some` of the
wrapping tick difference exactly when `const_cmp` is `Greater` or `Equal`
and `None` when it is `Less`; concretely for `u32`,
`Instant(2).checked_duration_since(Instant(u32::MAX)) = Some(3 ticks)`. -/
theorem checked_duration_since_spec :
    (∀ w a b : Nat,
      instantCheckedDurationSince w a b =
        if instantConstCmp w a b = Ordering.lt then none
        else some (wrappingSub w a b))
    ∧ instantCheckedDurationSince 32 2 (2 ^ 32 - 1) = some 3 := by
  refine ⟨fun w a b => ?_, by decide⟩
  unfold instantCheckedDurationSince
  cases h : instantConstCmp w a b <;> simp [h]

/-- **C3** counterexample. The claim says every arithmetic operator,
including multiplication by an integer, is the panicking wrapper of a
checked form, aborting on overflow. But `impl Mul<u32> for Duration` is a
plain `self.ticks *= other as $i`: at `2^31` ticks times `2` (a `u32` tick
count overflow) the operator yields the wrapped value `0` instead of
aborting, while a checked `w`-bit multiplication of the same operands has
no value. -/
theorem duration_mul_not_checked_counterexample :
    durationMulOp 32 2147483648 2 = 0 ∧ checkedMul 32 2147483648 2 = none := by
  decide

/-- **C3** (corrected). The `+` and `-` operators do call `checked_add` /
`checked_sub` and panic exactly on `None`; but `×integer` and `÷integer` act
directly on the tick count with primitive arithmetic (no checked form
exists): the multiplication wraps on overflow (`2^31 * 2 = 0` for `u32`
ticks) and the division only panics on a zero divisor. -/
theorem duration_ops_fail_fast_amended :
    (∀ (w : Nat) (F : Fraction) (a b : Nat),
      durationAddOp w F a b = durationCheckedAdd w F F a b)
    ∧ (∀ (w : Nat) (F : Fraction) (a b : Nat),
      durationSubOp w F a b = durationCheckedSub w F F a b)
    ∧ (∀ (w t k : Nat), durationMulOp w t k = t * k % 2 ^ w)
    ∧ (∀ t k : Nat, durationDivOp t k = if k = 0 then none else some (t / k))
    ∧ durationMulOp 32 2147483648 2 = 0
    ∧ durationDivOp 10 0 = none := by
  refine ⟨fun w F a b => ?_, fun w F a b => ?_, fun w t k => rfl, fun t k => rfl,
    by decide, by decide⟩
  · unfold durationAddOp
    cases durationCheckedAdd w F F a b <;> rfl
  · unfold durationSubOp
    cases durationCheckedSub w F F a b <;> rfl

/-- **C8** counterexample. The claim says a nonzero rate converts to the
duration `RATE_TO_DURATION_NUMERATOR / raw`. For `u32` values at rate scale
`1/1000` and duration scale `1/1_000_000_000` the `u64` constant is `10^12`,
but the code divides the constant *cast to the backing width*
(`10^12 mod 2^32 = 3567587328`), so `raw = 1` yields `3567587328` ticks, not
`10^12`. -/
theorem try_from_rate_truncation_counterexample :
    durationTryFromRate 32 ⟨1, 1000⟩ ⟨1, 1000000000⟩ 1 = some 3567587328
    ∧ rateToDurationNumerator ⟨1, 1000⟩ ⟨1, 1000000000⟩ / 1 = 1000000000000
    ∧ (3567587328 : Nat) ≠ 1000000000000 := by
  decide

/-- **C8** (corrected). `try_into_duration` is `None` exactly on `raw = 0`
and otherwise yields the truncating quotient of `RATE_TO_DURATION_NUMERATOR`
*cast to the backing width* (reduced `mod 2^w`) by `raw`; symmetrically a
duration converts to a rate with `None` exactly on zero ticks. The 1 kHz
rate (`raw = 1` at scale 1000/1) still converts to a duration of 1000 ticks
at scale 1/1_000_000, and a zero-tick duration's `try_into_rate` is `None`. -/
theorem rate_duration_reciprocal_amended :
    (∀ (w : Nat) (I F : Fraction) (raw : Nat),
      durationTryFromRate w I F raw =
        if raw = 0 then none
        else some (toWidth w (rateToDurationNumerator I F) / raw))
    ∧ (∀ (w : Nat) (I F : Fraction) (t : Nat),
      rateTryFromDuration w I F t =
        if t = 0 then none
        else some (toWidth w (rateToDurationNumerator I F) / t))
    ∧ durationTryFromRate 32 ⟨1000, 1⟩ ⟨1, 1000000⟩ 1 = some 1000
    ∧ rateTryFromDuration 32 ⟨1, 1000⟩ ⟨1, 1⟩ 0 = none := by
  refine ⟨fun w I F raw => ?_, fun w I F t => ?_, by decide, by decide⟩
  · unfold durationTryFromRate
    by_cases h : raw = 0
    · simp [h]
    · simp [h, Nat.pos_of_ne_zero h]
  · unfold rateTryFromDuration
    by_cases h : t = 0
    · simp [h]
    · simp [h, Nat.pos_of_ne_zero h]

/-- **C5** (confirmed). For valid scales `L` and `R`, the reducer's
`SAME_BASE` flag — `(R.denom*L.num)/g == (L.denom*R.num)/g` with
`g = gcd(L.denom*R.num, R.denom*L.num)` computed in 64-bit — holds exactly
when `L.num/L.denom` and `R.num/R.denom` are equal as rational numbers. -/
theorem same_base_iff_rat_eq (L R : Fraction) (hL : L.Valid) (hR : R.Valid) :
    sameBase L R = true ↔ (L.num : ℚ) / L.denom = (R.num : ℚ) / R.denom := by
  have hLd : (0 : ℚ) < L.denom := by exact_mod_cast hL.2.2.1
  have hRd : (0 : ℚ) < R.denom := by exact_mod_cast hR.2.2.1
  have key : sameBase L R = true ↔ L.denom * R.num = R.denom * L.num := by
    unfold sameBase ldTimesRn rdTimesLn divisor
    rw [beq_iff_eq]
    exact gcd_quot_eq_iff
  rw [key, div_eq_div_iff hLd.ne' hRd.ne']
  constructor
  · intro h
    have h' : L.num * R.denom = R.num * L.denom := by
      calc L.num * R.denom = R.denom * L.num := Nat.mul_comm _ _
      _ = L.denom * R.num := h.symm
      _ = R.num * L.denom := Nat.mul_comm _ _
    exact_mod_cast h'
  · intro h
    have h' : L.num * R.denom = R.num * L.denom := by exact_mod_cast h
    calc L.denom * R.num = R.num * L.denom := Nat.mul_comm _ _
    _ = L.num * R.denom := h'.symm
    _ = R.denom * L.num := Nat.mul_comm _ _

/-- **C5** witness: the scales 2/2000 and 1/1000 are same-base. -/
theorem same_base_iff_rat_eq_witness : sameBase ⟨2, 2000⟩ ⟨1, 1000⟩ = true :=
  (same_base_iff_rat_eq ⟨2, 2000⟩ ⟨1, 1000⟩ (by decide) (by decide)).mpr
    (by norm_num)

/-- **C6** (confirmed). For durations of the same backing width and any
scales, whenever `a.checked_add(b)` is `Some s`, `s.checked_sub(b)` is
`Some a`: the rescaled contribution of `b` is computed by the identical
expression in both functions, so the checked subtraction undoes the checked
addition. -/
theorem checked_add_sub_inverse (w : Nat) (F O : Fraction) (a b s : Nat)
    (h : durationCheckedAdd w F O a b = some s) :
    durationCheckedSub w F O s b = some a := by
  unfold durationCheckedAdd at h
  unfold durationCheckedSub
  split at h
  case isTrue hsb =>
    rw [if_pos hsb]
    unfold checkedAdd at h
    split at h
    case isTrue hlt =>
      injection h with h
      unfold checkedSub
      rw [if_pos (by omega)]
      congr 1
      omega
    case isFalse _ => exact Option.noConfusion h
  case isFalse hsb =>
    rw [if_neg hsb]
    split at h
    case h_1 lh hm =>
      by_cases hz : toWidth w (rdTimesLn F O) = 0
      · rw [if_pos hz] at h
        exact Option.noConfusion h
      · rw [if_neg hz] at h
        rw [if_neg hz]
        unfold checkedAdd at h
        split at h
        next hlt =>
          injection h with h
          unfold checkedSub
          rw [if_pos (by omega)]
          congr 1
          omega
        next _ => exact Option.noConfusion h
    case h_2 hm => exact Option.noConfusion h

/-- **C6** witness: adding 7 half-millisecond ticks to 5 millisecond ticks
gives 8 millisecond ticks, and subtracting the same duration returns to 5. -/
theorem checked_add_sub_inverse_witness :
    durationCheckedSub 32 ⟨1, 1000⟩ ⟨1, 2000⟩ 8 7 = some 5 :=
  checked_add_sub_inverse 32 ⟨1, 1000⟩ ⟨1, 2000⟩ 5 7 8 (by decide)

/-- **C4** counterexample. The claim says `l / r` first converts the
*right-hand* side into the left-hand side's base. The code converts the
*left-hand* side into the right's base (`self.convert::<R>()`), and the two
orders disagree once truncation enters: 1 tick at scale 1/1 divided by 1500
ticks at scale 1/1000 (1 s ÷ 1.5 s) gives 0 in the code, while the claim's
rule (1500 ms → 1 s, then 1 ÷ 1) gives 1. -/
theorem div_duration_operand_order_counterexample :
    durationDivDuration 32 ⟨1, 1⟩ ⟨1, 1000⟩ 1 1500 = some 0
    ∧ durationDivDurationSpec 32 ⟨1, 1⟩ ⟨1, 1000⟩ 1 1500 = some 1 := by
  decide

/-- **C4** (corrected). `l / r` converts the **left**-hand side into the
right-hand side's base and then divides the tick counts, truncating:
whenever the conversion of `l` into `R` yields `c` and `r`'s tick count is
nonzero, `l / r = c / r.ticks`. -/
theorem div_duration_converts_lhs_amended (w : Nat) (L R : Fraction)
    (lt rt c : Nat) (hc : durationConvert w L R lt = some c) (hrt : rt ≠ 0) :
    durationDivDuration w L R lt rt = some (c / rt) := by
  unfold durationDivDuration
  rw [hc]
  simp [hrt]

/-- **C4** witness: 1 tick at 1/100 s divided by 4 ticks at 1/1000 s:
the left operand converts to 10 ticks and the quotient is 2. -/
theorem div_duration_converts_lhs_amended_witness :
    durationDivDuration 32 ⟨1, 100⟩ ⟨1, 1000⟩ 1 4 = some 2 :=
  div_duration_converts_lhs_amended 32 ⟨1, 100⟩ ⟨1, 1000⟩ 1 4 10
    (by decide) (by decide)

/-- **C7** (confirmed). If converting `n` ticks from scale `A` into scale
`B` succeeds with `m` ticks and the rescaling division is exact (the scales
divide evenly: `LD_TIMES_RN ∣ n * RD_TIMES_LN`), then converting `m` back
into scale `A` succeeds and returns exactly `n` — the reverse direction
reuses the same reduced factors with the roles swapped, so no overflow or
truncation can appear on the way back. -/
theorem convert_round_trip (w : Nat) (A B : Fraction) (n m : Nat)
    (hA : A.Valid) (hB : B.Valid) (hn : n < 2 ^ w)
    (hdvd : ldTimesRn A B ∣ n * rdTimesLn A B)
    (h1 : durationConstTryFrom w A B n = some m) :
    durationConstTryFrom w B A m = some n := by
  unfold durationConstTryFrom at h1 ⊢
  split at h1
  case isTrue hsb =>
    injection h1 with h1
    subst h1
    rw [if_pos (by rw [sameBase_swap]; exact hsb)]
  case isFalse hsb =>
    rw [if_neg (by rw [sameBase_swap]; exact hsb)]
    split at h1
    case h_1 lh hm =>
      unfold checkedMul at hm
      split at hm
      next hlt =>
        injection hm with hm
        subst hm
        split at h1
        next hle =>
          injection h1 with h1
          subst h1
          rw [rdTimesLn_swap A B, ldTimesRn_swap A B]
          have hmul : n * rdTimesLn A B / ldTimesRn A B * ldTimesRn A B
              = n * rdTimesLn A B := Nat.div_mul_cancel hdvd
          have hcm : checkedMul 64 (n * rdTimesLn A B / ldTimesRn A B)
              (ldTimesRn A B) = some (n * rdTimesLn A B) := by
            unfold checkedMul
            rw [hmul, if_pos hlt]
          split
          case h_1 lh2 hm2 =>
            rw [hcm] at hm2
            injection hm2 with hm2
            subst hm2
            have hq : n * rdTimesLn A B / rdTimesLn A B = n := by
              rw [Nat.mul_div_assoc n (dvd_refl _),
                Nat.div_self (rdTimesLn_pos A B hA hB), Nat.mul_one]
            rw [hq, if_pos (by omega)]
          case h_2 hm2 =>
            rw [hcm] at hm2
            exact Option.noConfusion hm2
        next => exact Option.noConfusion h1
      next => exact Option.noConfusion hm
    case h_2 hm => exact Option.noConfusion h1

/-- **C7** witness: 7 ticks at 1/100 s convert to 70 ticks at 1/1000 s and
back to 7 ticks. -/
theorem convert_round_trip_witness :
    durationConstTryFrom 32 ⟨1, 1000⟩ ⟨1, 100⟩ 70 = some 7 :=
  convert_round_trip 32 ⟨1, 100⟩ ⟨1, 1000⟩ 7 70 (by decide) (by decide)
    (by decide) (by decide) (by decide)

/-- **C9** (confirmed). Widening a `u32`-backed duration into the
`u64`-backed one of the same scale always succeeds and preserves the tick
count (and lands inside the `u64` range); narrowing a `u64`-backed duration
to `u32` succeeds with the same tick count exactly when the count is at
most `u32::MAX` and fails otherwise. -/
theorem width_bridge_spec (t : Nat) (ht : t < 2 ^ 32) :
    (durationWidenU32ToU64 t = t ∧ durationWidenU32ToU64 t < 2 ^ 64)
    ∧ ∀ u : Nat,
        durationNarrowU64ToU32 u = if u ≤ 2 ^ 32 - 1 then some u else none := by
  exact ⟨⟨rfl, lt_trans ht (by norm_num)⟩, fun u => rfl⟩

/-- **C9** witness: 234 ticks widen unchanged; `u32::MAX + 1` fails to
narrow. -/
theorem width_bridge_spec_witness :
    (durationWidenU32ToU64 234 = 234 ∧ durationWidenU32ToU64 234 < 2 ^ 64)
    ∧ durationNarrowU64ToU32 (2 ^ 32) = none := by
  refine ⟨(width_bridge_spec 234 (by norm_num)).1, ?_⟩
  rw [(width_bridge_spec 234 (by norm_num)).2 (2 ^ 32), if_neg (by norm_num)]

/-- **C10** (confirmed). The `u32` instants with ticks `2147483647 = u32::MAX/2`
and `0` differ by exactly half the range: `const_cmp` calls them `Equal`,
yet `==` on the ticks is `false` and `const_cmp` with the arguments swapped
is `Less` — the wraparound `Equal` neither implies tick equality nor is
symmetric. -/
theorem const_cmp_equal_asymmetric :
    wrappingSub 32 2147483647 0 = (2 ^ 32 - 1) / 2
    ∧ instantConstCmp 32 2147483647 0 = Ordering.eq
    ∧ instantEq 2147483647 0 = false
    ∧ instantConstCmp 32 0 2147483647 = Ordering.lt := by
  decide

end Fugit
